import Mathlib

/-!
Shallow embedding of the core of the Rephraser repository
(template engine, action resolver, LLM client variants, error taxonomy),
with theorems checking the natural-language specification against it.

Conventions of the embedding:
* Rust `String`/`&str` is Lean `String`; character-level processing uses
  `String.data : List Char`, matching Rust's `chars()` iteration.
* `HashMap<String, String>` is modelled as an association list
  `List (String × String)`: lookup is first match, and the map's
  (unspecified but per-call fixed) iteration order is the list order.
* Fallible operations return `Except RephraserError α` for Rust's
  `Result<α, RephraserError>`.
* The asynchronous wrappers (`async`, the mock's artificial sleep) have no
  observable effect on the returned value and are dropped.
-/

namespace Rephraser

/-- Error type of `src/error.rs` (`enum RephraserError`).  The variants
`Config` through `Other` are declared in `error.rs`.  The four variants
`LlmAuth`, `LlmRateLimit`, `LlmBadRequest`, `LlmServiceError` are
constructed by `src/llm/openai.rs` and `src/llm/anthropic.rs` but their
declarations are absent from the `error.rs` in the snapshot.
Modelled from the spec: the missing declarations correspond to the spec
§7 kinds `Auth(detail)`, `RateLimit(detail)`, `BadRequest(detail)`,
`ServiceError(detail)`, each carrying a message, named here exactly as the
client code spells them. -/
inductive RephraserError where
  | Config (msg : String)
  | ActionNotFound (name : String)
  | LlmApi (msg : String)
  | Network (msg : String)
  | Io (msg : String)
  | Serialization (msg : String)
  | Toml (msg : String)
  | InputTooLong (max actual : Nat)
  | InvalidTemplate (msg : String)
  | Other (msg : String)
  | LlmAuth (msg : String)
  | LlmRateLimit (msg : String)
  | LlmBadRequest (msg : String)
  | LlmServiceError (msg : String)
deriving DecidableEq, Repr

deriving instance DecidableEq for Except

/-- The kind (constructor) of a `RephraserError`, forgetting the payload. -/
inductive ErrKind where
  | Config
  | ActionNotFound
  | LlmApi
  | Network
  | Io
  | Serialization
  | Toml
  | InputTooLong
  | InvalidTemplate
  | Other
  | LlmAuth
  | LlmRateLimit
  | LlmBadRequest
  | LlmServiceError
deriving DecidableEq, Repr

/-- Kind of an error value. -/
def errKind : RephraserError → ErrKind
  | .Config _ => .Config
  | .ActionNotFound _ => .ActionNotFound
  | .LlmApi _ => .LlmApi
  | .Network _ => .Network
  | .Io _ => .Io
  | .Serialization _ => .Serialization
  | .Toml _ => .Toml
  | .InputTooLong _ _ => .InputTooLong
  | .InvalidTemplate _ => .InvalidTemplate
  | .Other _ => .Other
  | .LlmAuth _ => .LlmAuth
  | .LlmRateLimit _ => .LlmRateLimit
  | .LlmBadRequest _ => .LlmBadRequest
  | .LlmServiceError _ => .LlmServiceError

/-- Rust `str::contains` at the character-list level: does `pat` occur as a
contiguous substring of `s`? -/
def containsSub (pat : List Char) : List Char → Bool
  | [] => pat.isEmpty
  | c :: rest => pat.isPrefixOf (c :: rest) || containsSub pat rest

/-- Worker for `replaceAll`, with explicit fuel (one unit per character
position examined) so the definition is structurally recursive.  With
`fuel ≥ s.length` it implements Rust `str::replace`: replace every
non-overlapping occurrence of `pat` in `s` with `rep`, left to right,
without re-scanning already substituted text. -/
def replaceAllGo (pat rep : List Char) : Nat → List Char → List Char
  | _, [] => []
  | 0, s => s
  | fuel + 1, c :: rest =>
    if !pat.isEmpty && pat.isPrefixOf (c :: rest) then
      rep ++ replaceAllGo pat rep fuel ((c :: rest).drop pat.length)
    else
      c :: replaceAllGo pat rep fuel rest

/-- Rust `String::replace(&pat, &rep)` on character lists (for the non-empty
patterns the engine builds). -/
def replaceAll (pat rep s : List Char) : List Char :=
  replaceAllGo pat rep s.length s

/-- Rust `HashMap::contains_key` on the association-list model of the
engine's variable map, with the key given as a character list. -/
def containsKey (vars : List (String × String)) (name : List Char) : Bool :=
  vars.any (fun kv => kv.1.data == name)

/-- The literal placeholder Rust builds with
`format!("\x7b\x7b\x7d\x7d", key)`: `'\x7b' ++ key ++ '\x7d'`. -/
def placeholderOf (key : String) : List Char :=
  '{' :: key.data ++ ['}']

/-- The substitution pass of `TemplateEngine::render`: for every bound
`(key, value)` pair, in the map's iteration order, replace every literal
occurrence of the placeholder of `key` with `value` (guarded by the same
redundant `contains` check as in the source). -/
def substAll (vars : List (String × String)) (template : List Char) : List Char :=
  vars.foldl
    (fun result kv =>
      if containsSub (placeholderOf kv.1) result then
        replaceAll (placeholderOf kv.1) kv.2.data result
      else
        result)
    template

/-- The validation scan of `TemplateEngine::render` as a character-at-a-time
state machine, mirroring the source's peekable-iterator loops.  The mode is
`none` outside any brace (the outer `while let` loop) and `some acc` while
accumulating a variable name after an opening brace (the inner loop);
reaching end of input while inside an open brace reports nothing, and a
closing brace reports the accumulated name exactly when it is non-empty and
not a bound key. -/
def scanGo (vars : List (String × String)) : List Char → Option (List Char) → List String
  | [], _ => []
  | c :: rest, none =>
    if c = '{' then scanGo vars rest (some []) else scanGo vars rest none
  | c :: rest, some acc =>
    if c = '}' then
      (if acc ≠ [] ∧ ¬ containsKey vars acc then [String.mk acc] else []) ++
        scanGo vars rest none
    else
      scanGo vars rest (some (acc ++ [c]))

/-- The list of unresolved variable names `render` collects from the
substituted text, in scan order. -/
def scanMissing (vars : List (String × String)) (s : List Char) : List String :=
  scanGo vars s none

/-- `TemplateEngine::render` (src/actions/template.rs): substitute every
bound variable, then scan the substituted text for surviving placeholders;
fail with `InvalidTemplate` listing all missing names joined by `", "`,
otherwise return the substituted text. -/
def render (vars : List (String × String)) (template : String) : Except RephraserError String :=
  let result := substAll vars template.data
  let missing := scanMissing vars result
  if missing.isEmpty then
    .ok (String.mk result)
  else
    .error (.InvalidTemplate ("Missing variables: " ++ String.intercalate ", " missing))

/-- `ActionConfig` (src/config/models.rs). -/
structure ActionConfig where
  name : String
  display_name : String
  prompt_template : String
deriving DecidableEq, Repr

/-- `ActionResolver` (src/actions/resolver.rs): owns the action list cloned
from the configuration. -/
structure ActionResolver where
  actions : List ActionConfig
deriving DecidableEq, Repr

/-- `ActionResolver::list_actions`: returns the stored action list as is. -/
def list_actions (r : ActionResolver) : List ActionConfig :=
  r.actions

/-- `ActionResolver::find_action`: first action whose `name` equals the
argument (Rust `Iterator::find` with `==` on strings). -/
def find_action (r : ActionResolver) (name : String) : Option ActionConfig :=
  r.actions.find? (fun a => a.name == name)

/-- `ActionResolver::resolve`: look the action up, fail with
`ActionNotFound` carrying the requested name if absent; otherwise build a
fresh engine, bind `text` to the input, and render the action's
`prompt_template`, returning the render result unchanged. -/
def resolve (r : ActionResolver) (action_name text : String) : Except RephraserError String :=
  match find_action r action_name with
  | none => .error (.ActionNotFound action_name)
  | some action => render [("text", text)] action.prompt_template

/-- Two successive `resolve` calls with the same arguments, as the pair of
their results (`resolve` takes `&self` and mutates nothing, so the second
call starts from the same state as the first). -/
def resolveTwice (r : ActionResolver) (action_name text : String) :
    Except RephraserError String × Except RephraserError String :=
  (resolve r action_name text, resolve r action_name text)

/-- `default_actions` (src/config/models.rs): the three built-in actions in
declaration order. -/
def default_actions : List ActionConfig :=
  [ { name := "polite"
    , display_name := "丁寧に"
    , prompt_template := "以下のテキストを丁寧な表現に変換してください。元の意味を保ったまま、敬語や丁寧語を適切に使用してください。\n\nテキスト:\n\x7btext\x7d\n\n丁寧な表現:" }
  , { name := "organize"
    , display_name := "整理する"
    , prompt_template := "以下のテキストを論理的に整理し、読みやすく構造化してください。\n\nテキスト:\n\x7btext\x7d\n\n整理されたテキスト:" }
  , { name := "summarize"
    , display_name := "要約"
    , prompt_template := "以下のテキストを簡潔に要約してください。\n\nテキスト:\n\x7btext\x7d\n\n要約:" } ]

/-- The resolver built from `Config::default()` (its `actions` field is
`default_actions()`). -/
def defaultResolver : ActionResolver :=
  { actions := default_actions }

/-- Rust `str::contains` on strings. -/
def stringContains (s sub : String) : Bool :=
  containsSub sub.data s.data

/-- The predefined responses of `MockLlmClient::new()` (src/llm/mock.rs),
keyed by action name, in one fixed iteration order. -/
def mockResponses : List (String × String) :=
  [ ("polite", "こんにちは、お元気でしょうか。いつもありがとうございます。")
  , ("organize", "整理されたテキスト：\n\n1. 主要ポイント\n   - 項目A\n   - 項目B\n\n2. 詳細説明\n   - 説明1\n   - 説明2\n\n3. まとめ\n   - 結論")
  , ("summarize", "要約: このテキストは主要な3つのポイントを含んでいます。") ]

/-- The `default_response` field of `MockLlmClient::new()`. -/
def mockDefaultResponse : String :=
  "[Mock LLM Response] Processed successfully."

/-- `MockLlmClient::extract_action`: first try each key of the response map
as a substring of the prompt, then the three Japanese action markers. -/
def extract_action (responses : List (String × String)) (prompt : String) : Option String :=
  match responses.find? (fun kv => stringContains prompt kv.1) with
  | some kv => some kv.1
  | none =>
    if stringContains prompt "丁寧" then some "polite"
    else if stringContains prompt "整理" then some "organize"
    else if stringContains prompt "要約" then some "summarize"
    else none

/-- `HashMap::get` on the association-list model of the mock's response
map. -/
def lookupResponse (responses : List (String × String)) (key : String) : Option String :=
  (responses.find? (fun kv => kv.1 == key)).map (fun kv => kv.2)

/-- `MockLlmClient::complete` (the artificial 100 ms sleep dropped): return
the canned response of the extracted action when one is found in the map,
the default response otherwise.  Never an error. -/
def mockComplete (responses : List (String × String)) (default_response prompt : String) :
    Except RephraserError String :=
  match extract_action responses prompt with
  | some action =>
    match lookupResponse responses action with
    | some response => .ok response
    | none => .ok default_response
  | none => .ok default_response

/-- OpenAI response message (`ChatResponseMessage`, src/llm/openai.rs). -/
structure ChatResponseMessage where
  content : String
deriving DecidableEq, Repr

/-- OpenAI response choice (`ChatChoice`). -/
structure ChatChoice where
  message : ChatResponseMessage
deriving DecidableEq, Repr

/-- OpenAI completion response envelope (`ChatCompletionResponse`). -/
structure ChatCompletionResponse where
  choices : List ChatChoice
deriving DecidableEq, Repr

/-- Anthropic response content block (`ResponseContent`,
src/llm/anthropic.rs); `content_type` is carried but unused, as in the
source. -/
structure ResponseContent where
  content_type : String
  text : String
deriving DecidableEq, Repr

/-- Anthropic messages response envelope (`MessagesResponse`). -/
structure MessagesResponse where
  content : List ResponseContent
deriving DecidableEq, Repr

/-- `reqwest::StatusCode::is_success`: 2xx. -/
def isSuccessStatus (status : Nat) : Bool :=
  200 ≤ status && status < 300

/-- Simulated outcome of the one HTTP exchange a vendor `complete` call
performs.  `sendFailure` models a transport-level failure of
`send()` (surfaced through the `reqwest::Error → Network` conversion);
`response status error_msg parsed` models a received response:
`error_msg` is the human-readable message obtained from the error body
(after the structured-parse-or-raw-text fallback, which only shapes the
message, never the classification), and `parsed` is the result of
deserializing the success body (`response.json()`, whose failure is again
a `reqwest::Error → Network`). -/
inductive SimHttp (α : Type) where
  | sendFailure (msg : String)
  | response (status : Nat) (error_msg : String) (parsed : Except String α)

/-- `OpenAiClient::complete` on a simulated exchange: non-2xx statuses are
classified 401/403 → `LlmAuth`, 429 → `LlmRateLimit`, 400 →
`LlmBadRequest`, otherwise `LlmServiceError`; a 2xx response yields the
first choice's message content, or `LlmApi` when the choice list is
empty.  (In the `LlmServiceError` message the source formats the
`StatusCode` with `Display`; here the numeric status stands in for it.) -/
def openAiComplete (r : SimHttp ChatCompletionResponse) : Except RephraserError String :=
  match r with
  | .sendFailure msg => .error (.Network msg)
  | .response status error_msg parsed =>
    if isSuccessStatus status then
      match parsed with
      | .error msg => .error (.Network msg)
      | .ok resp =>
        match resp.choices.head? with
        | some choice => .ok choice.message.content
        | none => .error (.LlmApi "OpenAI returned no choices")
    else
      .error
        (if status = 401 ∨ status = 403 then
          .LlmAuth ("OpenAI authentication failed: " ++ error_msg)
        else if status = 429 then
          .LlmRateLimit ("OpenAI rate limit exceeded: " ++ error_msg)
        else if status = 400 then
          .LlmBadRequest ("OpenAI bad request: " ++ error_msg)
        else
          .LlmServiceError ("OpenAI API error (" ++ toString status ++ "): " ++ error_msg))

/-- `AnthropicClient::complete` on a simulated exchange: the same status
classification as the OpenAI variant, with Anthropic message prefixes; a
2xx response yields the first content block's text, or `LlmApi` when the
content list is empty. -/
def anthropicComplete (r : SimHttp MessagesResponse) : Except RephraserError String :=
  match r with
  | .sendFailure msg => .error (.Network msg)
  | .response status error_msg parsed =>
    if isSuccessStatus status then
      match parsed with
      | .error msg => .error (.Network msg)
      | .ok resp =>
        match resp.content.head? with
        | some block => .ok block.text
        | none => .error (.LlmApi "Anthropic returned no content")
    else
      .error
        (if status = 401 ∨ status = 403 then
          .LlmAuth ("Anthropic authentication failed: " ++ error_msg)
        else if status = 429 then
          .LlmRateLimit ("Anthropic rate limit exceeded: " ++ error_msg)
        else if status = 400 then
          .LlmBadRequest ("Anthropic bad request: " ++ error_msg)
        else
          .LlmServiceError ("Anthropic API error (" ++ toString status ++ "): " ++ error_msg))

/-- The spec §4.3 status classification table, written from the spec's
words (401 or 403 → Auth, 429 → RateLimit, 400 → BadRequest, any other
non-2xx → ServiceError), to be compared with the clients' code. -/
def specStatusKind (status : Nat) : ErrKind :=
  if status = 401 ∨ status = 403 then .LlmAuth
  else if status = 429 then .LlmRateLimit
  else if status = 400 then .LlmBadRequest
  else .LlmServiceError

/-- Kind of the error of a completed operation, `none` on success. -/
def resultKind (r : Except RephraserError String) : Option ErrKind :=
  match r with
  | .ok _ => none
  | .error e => some (errKind e)

/-- The eight-kind taxonomy of spec §7, under the constructor names the
client code uses (`Auth` = `LlmAuth`, `RateLimit` = `LlmRateLimit`,
`BadRequest` = `LlmBadRequest`, `ServiceError` = `LlmServiceError`,
`Api` = `LlmApi`). -/
def isTaxonomyKind (k : ErrKind) : Bool :=
  match k with
  | .ActionNotFound => true
  | .InvalidTemplate => true
  | .Network => true
  | .LlmAuth => true
  | .LlmRateLimit => true
  | .LlmBadRequest => true
  | .LlmServiceError => true
  | .LlmApi => true
  | _ => false

/-- The characters of the polite action's template before its single
placeholder. -/
def politePre : List Char :=
  "以下のテキストを丁寧な表現に変換してください。元の意味を保ったまま、敬語や丁寧語を適切に使用してください。\n\nテキスト:\n".data

/-- The characters of the polite action's template after its single
placeholder. -/
def politeSuf : List Char :=
  "\n\n丁寧な表現:".data

/-- A registry with a duplicated action name, exercising first-match
lookup. -/
def dupResolver : ActionResolver :=
  { actions :=
    [ { name := "dup", display_name := "first", prompt_template := "first" }
    , { name := "other", display_name := "o", prompt_template := "o" }
    , { name := "dup", display_name := "second", prompt_template := "second" } ] }

/-- The default registry extended by one extra action; `find` answers the
built-in names identically on both. -/
def extendedResolver : ActionResolver :=
  { actions :=
      default_actions ++ [{ name := "extra", display_name := "x", prompt_template := "y" }] }

/-! ### Helper lemmas about the character-level workers -/

/-- Structure eta for strings. -/
theorem mk_data (t : String) : String.mk t.data = t := rfl

/-- A character of the pattern that does not occur in the text prevents any
match, so replacement is the identity (for any fuel). -/
theorem replaceAllGo_not_mem {c : Char} {pat : List Char} (hc : c ∈ pat) (rep : List Char) :
    ∀ (fuel : Nat) (s : List Char), c ∉ s → replaceAllGo pat rep fuel s = s := by
  intro fuel
  induction fuel with
  | zero =>
    intro s _
    cases s <;> simp [replaceAllGo]
  | succ n ih =>
    intro s hs
    cases s with
    | nil => simp [replaceAllGo]
    | cons a rest =>
      have hnp : pat.isPrefixOf (a :: rest) = false := by
        by_contra h
        have hb : pat.isPrefixOf (a :: rest) = true := by
          revert h; cases pat.isPrefixOf (a :: rest) <;> simp
        have hp : pat <+: (a :: rest) := List.isPrefixOf_iff_prefix.mp hb
        exact hs (hp.subset hc)
      have hrest : c ∉ rest := fun h => hs (List.mem_cons_of_mem a h)
      simp [replaceAllGo, hnp, ih rest hrest]

/-- `replaceAll` version of `replaceAllGo_not_mem`. -/
theorem replaceAll_not_mem {c : Char} {pat : List Char} (hc : c ∈ pat) (rep s : List Char)
    (hs : c ∉ s) : replaceAll pat rep s = s :=
  replaceAllGo_not_mem hc rep s.length s hs

/-- Every placeholder contains an opening brace. -/
theorem open_mem_placeholderOf (key : String) : '{' ∈ placeholderOf key := by
  simp [placeholderOf]

/-- Every placeholder contains a closing brace. -/
theorem close_mem_placeholderOf (key : String) : '}' ∈ placeholderOf key := by
  simp [placeholderOf]

/-- If a character occurring in every placeholder does not occur in the
text, the whole substitution pass is the identity. -/
theorem substAll_eq_self {c : Char} (hc : ∀ key : String, c ∈ placeholderOf key)
    {t : List Char} (ht : c ∉ t) : ∀ vars, substAll vars t = t := by
  intro vars
  induction vars with
  | nil => rfl
  | cons kv vars ih =>
    have hstep :
        (if containsSub (placeholderOf kv.1) t then
          replaceAll (placeholderOf kv.1) kv.2.data t
        else t) = t := by
      split
      · exact replaceAll_not_mem (hc kv.1) _ t ht
      · rfl
    calc substAll (kv :: vars) t
        = substAll vars
            (if containsSub (placeholderOf kv.1) t then
              replaceAll (placeholderOf kv.1) kv.2.data t
            else t) := rfl
      _ = substAll vars t := by rw [hstep]
      _ = t := ih

/-- In outside mode the scanner ignores every character other than an
opening brace. -/
theorem scanGo_append_none (vars : List (String × String)) :
    ∀ {xs : List Char}, '{' ∉ xs → ∀ (rest : List Char),
      scanGo vars (xs ++ rest) none = scanGo vars rest none := by
  intro xs
  induction xs with
  | nil => intro _ rest; rfl
  | cons a xs ih =>
    intro h rest
    have ha : a ≠ '{' := fun hh => h (hh ▸ List.mem_cons_self a xs)
    have hxs : '{' ∉ xs := fun hh => h (List.mem_cons_of_mem a hh)
    simp [scanGo, ha, ih hxs rest]

/-- A text without an opening brace produces no missing variables. -/
theorem scanGo_none_of_no_open (vars : List (String × String)) {s : List Char}
    (h : '{' ∉ s) : scanGo vars s none = [] := by
  have := scanGo_append_none vars h []
  simpa using this

/-- In accumulating mode the scanner pushes every character up to the next
closing brace onto the accumulator. -/
theorem scanGo_append_some (vars : List (String × String)) :
    ∀ {xs : List Char}, (∀ c ∈ xs, c ≠ '}') → ∀ (rest : List Char) (acc : List Char),
      scanGo vars (xs ++ rest) (some acc) = scanGo vars rest (some (acc ++ xs)) := by
  intro xs
  induction xs with
  | nil => intro _ rest acc; simp
  | cons a xs ih =>
    intro h rest acc
    have ha : a ≠ '}' := h a (List.mem_cons_self a xs)
    have hxs : ∀ c ∈ xs, c ≠ '}' := fun c hc => h c (List.mem_cons_of_mem a hc)
    simp [scanGo, ha, ih hxs rest (acc ++ [a])]

/-- A text without a closing brace produces no missing variables, whatever
mode the scanner starts in. -/
theorem scanGo_of_no_close (vars : List (String × String)) :
    ∀ {s : List Char}, '}' ∉ s → ∀ (mode : Option (List Char)), scanGo vars s mode = [] := by
  intro s
  induction s with
  | nil => intro _ mode; cases mode <;> rfl
  | cons a rest ih =>
    intro h mode
    have ha : a ≠ '}' := fun hh => h (hh ▸ List.mem_cons_self a rest)
    have hrest : '}' ∉ rest := fun hh => h (List.mem_cons_of_mem a hh)
    cases mode with
    | none =>
      by_cases hb : a = '{' <;> simp [scanGo, hb, ha, ih hrest]
    | some acc =>
      simp [scanGo, ha, ih hrest]

/-- The scanner never reports the empty identifier. -/
theorem scanGo_ne_empty (vars : List (String × String)) :
    ∀ (s : List Char) (mode : Option (List Char)) (x : String),
      x ∈ scanGo vars s mode → x ≠ "" := by
  intro s
  induction s with
  | nil => intro mode x hx; simp [scanGo] at hx
  | cons a rest ih =>
    intro mode x hx
    cases mode with
    | none =>
      by_cases hb : a = '{'
      · rw [show scanGo vars (a :: rest) none = scanGo vars rest (some []) from by
          simp [scanGo, hb]] at hx
        exact ih _ _ hx
      · rw [show scanGo vars (a :: rest) none = scanGo vars rest none from by
          simp [scanGo, hb]] at hx
        exact ih _ _ hx
    | some acc =>
      by_cases hb : a = '}'
      · rw [show scanGo vars (a :: rest) (some acc) =
            (if acc ≠ [] ∧ ¬ containsKey vars acc then [String.mk acc] else []) ++
              scanGo vars rest none from by simp [scanGo, hb]] at hx
        rcases List.mem_append.mp hx with h1 | h2
        · by_cases hcond : acc ≠ [] ∧ ¬ containsKey vars acc
          · rw [if_pos hcond] at h1
            have hx1 : x = String.mk acc := by simpa using h1
            intro hxe
            apply hcond.1
            rw [hx1] at hxe
            exact congrArg String.data hxe
          · rw [if_neg hcond] at h1
            simp at h1
        · exact ih _ _ h2
      · rw [show scanGo vars (a :: rest) (some acc) =
            scanGo vars rest (some (acc ++ [a])) from by simp [scanGo, hb]] at hx
        exact ih _ _ hx

/-- A prefix occurrence is an occurrence. -/
theorem containsSub_of_isPrefixOf {pat s : List Char} (h : pat.isPrefixOf s = true) :
    containsSub pat s = true := by
  cases s with
  | nil =>
    cases pat with
    | nil => simp [containsSub]
    | cons c cs => simp [List.isPrefixOf] at h
  | cons a rest => simp [containsSub, h]

/-- A pattern occurring verbatim between two pieces of text is found by
`containsSub`. -/
theorem containsSub_append (pat : List Char) :
    ∀ (xs ys : List Char), containsSub pat (xs ++ pat ++ ys) = true := by
  intro xs
  induction xs with
  | nil =>
    intro ys
    exact containsSub_of_isPrefixOf (List.isPrefixOf_iff_prefix.mpr ⟨ys, by simp⟩)
  | cons a xs ih =>
    intro ys
    simp only [List.cons_append, containsSub, Bool.or_eq_true]
    exact Or.inr (by simpa using ih ys)

/-- When the first character of the pattern occurs neither before nor after
one verbatim occurrence of the pattern, replacement rewrites exactly that
occurrence. -/
theorem replaceAllGo_exact {c : Char} {patTail rep : List Char} :
    ∀ (xs : List Char) (fuel : Nat) (ys : List Char),
      xs.length + (c :: patTail).length + ys.length ≤ fuel →
      c ∉ xs → c ∉ ys →
      replaceAllGo (c :: patTail) rep fuel (xs ++ (c :: patTail) ++ ys) = xs ++ rep ++ ys := by
  intro xs
  induction xs with
  | nil =>
    intro fuel ys hfuel _ hys
    cases fuel with
    | zero => simp at hfuel
    | succ f =>
      have hrest : replaceAllGo (c :: patTail) rep f ys = ys :=
        replaceAllGo_not_mem (List.mem_cons_self c patTail) rep f ys hys
      have hpre : (c :: patTail).isPrefixOf (c :: (patTail ++ ys)) = true :=
        List.isPrefixOf_iff_prefix.mpr ⟨ys, rfl⟩
      have hdrop : (c :: (patTail ++ ys)).drop (c :: patTail).length = ys :=
        List.drop_left (c :: patTail) ys
      calc replaceAllGo (c :: patTail) rep (f + 1) ([] ++ (c :: patTail) ++ ys)
          = replaceAllGo (c :: patTail) rep (f + 1) (c :: (patTail ++ ys)) := by
            simp
        _ = rep ++ replaceAllGo (c :: patTail) rep f
              ((c :: (patTail ++ ys)).drop (c :: patTail).length) := by
            simp only [replaceAllGo, hpre, List.isEmpty_cons, Bool.not_false, Bool.true_and,
              if_true]
        _ = rep ++ ys := by rw [hdrop, hrest]
        _ = [] ++ rep ++ ys := by simp
  | cons a xs ih =>
    intro fuel ys hfuel hxs hys
    cases fuel with
    | zero => simp at hfuel
    | succ f =>
      have ha : c ≠ a := fun hh => hxs (hh ▸ List.mem_cons_self a xs)
      have hxs' : c ∉ xs := fun hh => hxs (List.mem_cons_of_mem a hh)
      have hfuel' : xs.length + (c :: patTail).length + ys.length ≤ f := by
        simp only [List.length_cons] at hfuel ⊢
        omega
      have hnp : (c :: patTail).isPrefixOf (a :: (xs ++ ((c :: patTail) ++ ys))) = false := by
        simp [List.isPrefixOf, beq_eq_false_iff_ne.mpr ha]
      have hih := ih f ys hfuel' hxs' hys
      calc replaceAllGo (c :: patTail) rep (f + 1) ((a :: xs) ++ (c :: patTail) ++ ys)
          = replaceAllGo (c :: patTail) rep (f + 1)
              (a :: (xs ++ ((c :: patTail) ++ ys))) := by simp
        _ = a :: replaceAllGo (c :: patTail) rep f (xs ++ ((c :: patTail) ++ ys)) := by
            simp only [replaceAllGo]
            rw [hnp]
            simp
        _ = a :: (xs ++ rep ++ ys) := by
            rw [show xs ++ ((c :: patTail) ++ ys) = xs ++ (c :: patTail) ++ ys from
              (List.append_assoc _ _ _).symm, hih]
        _ = (a :: xs) ++ rep ++ ys := by simp

/-- `replaceAll` version of `replaceAllGo_exact`. -/
theorem replaceAll_exact {c : Char} {patTail rep : List Char} (xs ys : List Char)
    (hxs : c ∉ xs) (hys : c ∉ ys) :
    replaceAll (c :: patTail) rep (xs ++ (c :: patTail) ++ ys) = xs ++ rep ++ ys := by
  apply replaceAllGo_exact xs _ ys _ hxs hys
  simp only [List.length_append, List.length_cons]
  omega

/-! ### Render-level helper lemmas -/

/-- Joining a single name is that name. -/
theorem intercalate_singleton (sep x : String) : String.intercalate sep [x] = x := by
  simp [String.intercalate, String.intercalate.go]

/-- A failing `render` call names the collected missing variables. -/
theorem render_error_of_scan {vars : List (String × String)} {t : String} {a : String}
    {as : List String} (h : scanMissing vars (substAll vars t.data) = a :: as) :
    render vars t = .error (.InvalidTemplate
      ("Missing variables: " ++ String.intercalate ", " (a :: as))) := by
  simp only [render, h]
  simp

/-- A `render` call whose scan collects nothing returns the substituted
text. -/
theorem render_ok_of_scan {vars : List (String × String)} {t : String}
    (h : scanMissing vars (substAll vars t.data) = []) :
    render vars t = .ok (String.mk (substAll vars t.data)) := by
  simp only [render, h]
  simp

/-- `render` only ever fails with `InvalidTemplate`. -/
theorem render_error_kind {vars : List (String × String)} {t : String} {e : RephraserError}
    (h : render vars t = .error e) : errKind e = .InvalidTemplate := by
  simp only [render] at h
  split at h
  · exact absurd h (by simp)
  · injection h with h1
    subst h1
    rfl

/-- A template without an opening brace renders to itself. -/
theorem render_of_no_open (vars : List (String × String)) (t : String)
    (ht : '{' ∉ t.data) : render vars t = .ok t := by
  have hsub : substAll vars t.data = t.data :=
    substAll_eq_self (fun key => open_mem_placeholderOf key) ht vars
  have hscan : scanMissing vars (substAll vars t.data) = [] := by
    rw [hsub]
    exact scanGo_none_of_no_open vars ht
  rw [render_ok_of_scan hscan, hsub, mk_data]

/-- A template without a closing brace renders to itself. -/
theorem render_of_no_close (vars : List (String × String)) (t : String)
    (ht : '}' ∉ t.data) : render vars t = .ok t := by
  have hsub : substAll vars t.data = t.data :=
    substAll_eq_self (fun key => close_mem_placeholderOf key) ht vars
  have hscan : scanMissing vars (substAll vars t.data) = [] := by
    rw [hsub]
    exact scanGo_of_no_close vars ht none
  rw [render_ok_of_scan hscan, hsub, mk_data]

/-- A pattern longer than the text is not a prefix of it. -/
theorem isPrefixOf_eq_false_of_lt {p s : List Char} (h : s.length < p.length) :
    p.isPrefixOf s = false := by
  by_contra hb
  have hb' : p.isPrefixOf s = true := by
    revert hb; cases p.isPrefixOf s <;> simp
  have hp := List.isPrefixOf_iff_prefix.mp hb'
  have := hp.length_le
  omega

/-- The placeholder of a non-empty key cannot match inside a lone brace
pair, so replacement leaves it alone. -/
theorem replaceAll_bracePair {key : String} (hk : key.data ≠ []) (rep : List Char) :
    replaceAll (placeholderOf key) rep ['{', '}'] = ['{', '}'] := by
  have hpos : 1 ≤ key.data.length := List.length_pos.mpr hk
  have hlen : 3 ≤ (placeholderOf key).length := by
    simp only [placeholderOf, List.length_cons, List.length_append, List.length_nil]
    omega
  have h1 : (placeholderOf key).isPrefixOf ['{', '}'] = false :=
    isPrefixOf_eq_false_of_lt (by
      simp only [List.length_cons, List.length_nil]
      omega)
  have h2 : (placeholderOf key).isPrefixOf ['}'] = false :=
    isPrefixOf_eq_false_of_lt (by
      simp only [List.length_cons, List.length_nil]
      omega)
  simp [replaceAll, replaceAllGo, h1, h2]

/-- Substitution leaves a lone brace pair alone when no key is the empty
string. -/
theorem substAll_bracePair : ∀ {vars : List (String × String)},
    (∀ kv ∈ vars, kv.1 ≠ "") → substAll vars ['{', '}'] = ['{', '}'] := by
  intro vars
  induction vars with
  | nil => intro _; rfl
  | cons kv vars ih =>
    intro h
    have hk : kv.1.data ≠ [] := by
      intro hh
      apply h kv (List.mem_cons_self kv vars)
      have h2 := congrArg String.mk hh
      rwa [mk_data] at h2
    have hstep :
        (if containsSub (placeholderOf kv.1) ['{', '}'] then
          replaceAll (placeholderOf kv.1) kv.2.data ['{', '}']
        else ['{', '}']) = ['{', '}'] := by
      split
      · exact replaceAll_bracePair hk kv.2.data
      · rfl
    calc substAll (kv :: vars) ['{', '}']
        = substAll vars
            (if containsSub (placeholderOf kv.1) ['{', '}'] then
              replaceAll (placeholderOf kv.1) kv.2.data ['{', '}']
            else ['{', '}']) := rfl
      _ = substAll vars ['{', '}'] := by rw [hstep]
      _ = ['{', '}'] := ih (fun kv2 hkv2 => h kv2 (List.mem_cons_of_mem _ hkv2))

/-- The scanner skips a lone brace pair: the identifier is empty. -/
theorem scanMissing_bracePair (vars : List (String × String)) :
    scanMissing vars ['{', '}'] = [] := by
  simp [scanMissing, scanGo]

/-- First-match characterization of `List.find?`. -/
theorem find?_first {α : Type} (p : α → Bool) :
    ∀ (l : List α) (a : α), l.find? p = some a →
      p a = true ∧ ∃ pre post, l = pre ++ a :: post ∧ ∀ b ∈ pre, p b = false := by
  intro l
  induction l with
  | nil => intro a h; simp at h
  | cons x xs ih =>
    intro a h
    by_cases hx : p x
    · rw [List.find?_cons_of_pos _ hx] at h
      have hax : x = a := by injection h
      subst hax
      exact ⟨hx, [], xs, rfl, by simp⟩
    · rw [List.find?_cons_of_neg _ hx] at h
      obtain ⟨hp, pre, post, heq, hpre⟩ := ih a h
      refine ⟨hp, x :: pre, post, by rw [heq]; rfl, ?_⟩
      intro b hb
      rcases List.mem_cons.mp hb with hb | hb
      · subst hb
        exact Bool.eq_false_iff.mpr hx
      · exact hpre b hb

/-! ### Claim theorems -/

/-- C3: for every template and every binding set, `render` substitutes
every bound placeholder and then scans the substituted text: when the scan
collects missing identifiers it fails with an `InvalidTemplate` error
joining all of them (not just the first), otherwise it returns the
substituted text unchanged by the scan; in particular a template with no
opening brace renders to itself regardless of bindings. -/
theorem render_substitute_then_scan :
    ∀ (vars : List (String × String)) (t : String),
      (∀ (a : String) (as : List String),
        scanMissing vars (substAll vars t.data) = a :: as →
        render vars t = .error (.InvalidTemplate
          ("Missing variables: " ++ String.intercalate ", " (a :: as)))) ∧
      (scanMissing vars (substAll vars t.data) = [] →
        render vars t = .ok (String.mk (substAll vars t.data))) ∧
      ('{' ∉ t.data → render vars t = .ok t) := by
  intro vars t
  exact ⟨fun a as h => render_error_of_scan h, fun h => render_ok_of_scan h,
    fun h => render_of_no_open vars t h⟩

/-- Witness for C3 at concrete inputs: two unbound placeholders are both
reported, a fully bound template substitutes, a placeholder-free template
is returned unchanged. -/
theorem render_substitute_then_scan_witness :
    render [("a", "1")] "x\x7bb\x7dy \x7ba\x7d \x7bc\x7d" =
      .error (.InvalidTemplate "Missing variables: b, c") ∧
    render [("a", "1")] "ok \x7ba\x7d" = .ok "ok 1" ∧
    render [("a", "1")] "plain" = .ok "plain" :=
  ⟨((render_substitute_then_scan [("a", "1")] "x\x7bb\x7dy \x7ba\x7d \x7bc\x7d").1
      "b" ["c"] (by decide)).trans (by decide),
   ((render_substitute_then_scan [("a", "1")] "ok \x7ba\x7d").2.1 (by decide)).trans (by decide),
   (render_substitute_then_scan [("a", "1")] "plain").2.2 (by decide)⟩

/-- C7 counterexample: with the binding set containing the empty-named
binding `"" ↦ "\x7bx\x7d"`, the template consisting of one brace pair is
rewritten by substitution into a text with a surviving unbound placeholder
and `render` fails — refuting, as universally stated over binding sets,
that such templates render successfully. -/
theorem render_braces_cex :
    render [("", "\x7bx\x7d")] "\x7b\x7d" =
      .error (.InvalidTemplate "Missing variables: x") := by
  decide

/-- C7 (amended): the scanner never reports an empty identifier and never
reports an unterminated opening brace; a template with no closing brace at
all renders to itself under every binding set, and the lone brace pair
renders to itself provided no binding is named by the empty string (a
binding of the empty name may otherwise substitute a new unbound
placeholder into the text). -/
theorem render_braces_lenient :
    ∀ (vars : List (String × String)) (s : List Char) (t : String),
      (∀ x ∈ scanMissing vars s, x ≠ "") ∧
      ((∀ c ∈ t.data, c ≠ '}') → render vars t = .ok t) ∧
      ((∀ kv ∈ vars, kv.1 ≠ "") → render vars "\x7b\x7d" = .ok "\x7b\x7d") := by
  intro vars s t
  refine ⟨fun x hx => scanGo_ne_empty vars s none x hx, ?_, ?_⟩
  · intro h
    exact render_of_no_close vars t (fun hmem => h '}' hmem rfl)
  · intro h
    have hdata : ("\x7b\x7d" : String).data = ['{', '}'] := rfl
    have hsub : substAll vars ("\x7b\x7d" : String).data = ['{', '}'] := by
      rw [hdata]
      exact substAll_bracePair h
    have hscan : scanMissing vars (substAll vars ("\x7b\x7d" : String).data) = [] := by
      rw [hsub]
      exact scanMissing_bracePair vars
    rw [render_ok_of_scan hscan, hsub]

/-- Witness for the amended C7: an unterminated brace passes through, and
the lone brace pair renders unchanged under a non-empty-named binding. -/
theorem render_braces_lenient_witness :
    render [("a", "1")] "code \x7b snippet" = .ok "code \x7b snippet" ∧
    render [("a", "1")] "\x7b\x7d" = .ok "\x7b\x7d" :=
  ⟨(render_braces_lenient [("a", "1")] [] "code \x7b snippet").2.1 (by decide),
   (render_braces_lenient [("a", "1")] [] "\x7b\x7d").2.2 (by decide)⟩

/-- C10: the scanner accepts any non-empty run of characters without a
closing brace — spaces, punctuation and nested opening braces included —
between an opening brace and the next closing brace as an identifier, and
with no bindings such a template fails naming exactly that run; in
particular the two-word run of the example. -/
theorem scanner_accepts_arbitrary_identifier :
    (∀ (name : String), name.data ≠ [] → (∀ c ∈ name.data, c ≠ '}') →
      render [] (String.mk ('{' :: name.data ++ ['}'])) =
        .error (.InvalidTemplate ("Missing variables: " ++ name))) ∧
    render [] "\x7bhello world\x7d" =
      .error (.InvalidTemplate "Missing variables: hello world") := by
  constructor
  · intro name hne hnc
    have hscan : scanMissing ([] : List (String × String))
        (substAll [] (String.mk ('{' :: name.data ++ ['}'])).data) = [name] := by
      show scanGo [] ('{' :: name.data ++ ['}']) none = [name]
      rw [show scanGo ([] : List (String × String)) ('{' :: name.data ++ ['}']) none
          = scanGo [] (name.data ++ ['}']) (some []) from by simp [scanGo]]
      rw [scanGo_append_some [] hnc ['}'] []]
      simp [scanGo, containsKey, hne, mk_data]
    have h := render_error_of_scan hscan
    rwa [intercalate_singleton] at h
  · decide

/-- Witness for C10 at an identifier containing a space, punctuation and a
nested opening brace. -/
theorem scanner_accepts_arbitrary_identifier_witness :
    render [] (String.mk ('{' :: ("a \x7b.!?" : String).data ++ ['}'])) =
      .error (.InvalidTemplate ("Missing variables: " ++ "a \x7b.!?")) :=
  scanner_accepts_arbitrary_identifier.1 "a \x7b.!?" (by decide) (by decide)

/-- C4: `resolve` fails with an `ActionNotFound` error carrying the
requested name exactly when no action in the registry bears that name, and
when an action is found it returns exactly the result of rendering the
action's template with the single binding of `text` — a Template error is
propagated unchanged, without wrapping or reclassification. -/
theorem resolve_not_found_iff_and_propagates :
    ∀ (r : ActionResolver) (n t : String),
      (resolve r n t = .error (.ActionNotFound n) ↔ ∀ a ∈ r.actions, a.name ≠ n) ∧
      (∀ a, find_action r n = some a →
        resolve r n t = render [("text", t)] a.prompt_template) := by
  intro r n t
  constructor
  · constructor
    · intro h a ha
      cases hf : find_action r n with
      | none =>
        simp only [find_action] at hf
        have := List.find?_eq_none.mp hf a ha
        simpa using this
      | some a2 =>
        simp only [resolve, hf] at h
        have hk := render_error_kind h
        simp [errKind] at hk
    · intro h
      have hf : find_action r n = none := by
        simp only [find_action]
        exact List.find?_eq_none.mpr (fun a ha => by simp [h a ha])
      simp [resolve, hf]
  · intro a hf
    simp [resolve, hf]

/-- Witness for C4: the default registry misses a made-up name and
propagates the polite action's render result. -/
theorem resolve_not_found_iff_and_propagates_witness :
    (resolve defaultResolver "nonexistent" "test" =
        .error (.ActionNotFound "nonexistent") ↔
      ∀ a ∈ defaultResolver.actions, a.name ≠ "nonexistent") ∧
    resolve defaultResolver "polite" "Hi" =
      render [("text", "Hi")]
        "以下のテキストを丁寧な表現に変換してください。元の意味を保ったまま、敬語や丁寧語を適切に使用してください。\n\nテキスト:\n\x7btext\x7d\n\n丁寧な表現:" :=
  ⟨(resolve_not_found_iff_and_propagates defaultResolver "nonexistent" "test").1,
   (resolve_not_found_iff_and_propagates defaultResolver "polite" "Hi").2
     { name := "polite", display_name := "丁寧に"
     , prompt_template := "以下のテキストを丁寧な表現に変換してください。元の意味を保ったまま、敬語や丁寧語を適切に使用してください。\n\nテキスト:\n\x7btext\x7d\n\n丁寧な表現:" }
     (by decide)⟩

/-- C5: `list` returns the actions in stored declaration order (the list
itself, not sorted), and `find` returns the first action whose name equals
the argument exactly: a found action bears the requested name and every
action declared before it does not — so with duplicate names the
first-declared action wins — and `find` misses exactly when no action
bears the name. -/
theorem registry_order_and_first_match :
    ∀ (r : ActionResolver) (n : String),
      list_actions r = r.actions ∧
      (find_action r n = none ↔ ∀ a ∈ r.actions, a.name ≠ n) ∧
      (∀ a, find_action r n = some a →
        a.name = n ∧ ∃ pre post, r.actions = pre ++ a :: post ∧
          ∀ b ∈ pre, b.name ≠ n) := by
  intro r n
  refine ⟨rfl, ?_, ?_⟩
  · constructor
    · intro h a ha
      simp only [find_action] at h
      have := List.find?_eq_none.mp h a ha
      simpa using this
    · intro h
      simp only [find_action]
      exact List.find?_eq_none.mpr (fun a ha => by simp [h a ha])
  · intro a hf
    simp only [find_action] at hf
    obtain ⟨hp, pre, post, heq, hpre⟩ := find?_first (fun a => a.name == n) r.actions a hf
    refine ⟨by simpa using hp, pre, post, heq, ?_⟩
    intro b hb
    have := hpre b hb
    simpa using this

/-- Witness for C5 on a registry with a duplicated name: the
first-declared duplicate is found, with everything before it not bearing
the name. -/
theorem registry_order_and_first_match_witness :
    (ActionConfig.mk "dup" "first" "first").name = "dup" ∧
    ∃ pre post, dupResolver.actions =
        pre ++ ActionConfig.mk "dup" "first" "first" :: post ∧
      ∀ b ∈ pre, b.name ≠ "dup" :=
  (registry_order_and_first_match dupResolver "dup").2.2
    (ActionConfig.mk "dup" "first" "first") (by decide)

/-- C8: two successive `resolve` calls with identical arguments against
the same registry return the identical result, and the result depends on
nothing but what `find` answers for the requested name — rendering is not
affected by hidden mutable state. -/
theorem resolve_idempotent :
    ∀ (r r2 : ActionResolver) (n t : String),
      (resolveTwice r n t).1 = (resolveTwice r n t).2 ∧
      (find_action r n = find_action r2 n → resolve r n t = resolve r2 n t) := by
  intro r r2 n t
  exact ⟨rfl, fun h => by simp only [resolve, h]⟩

/-- Witness for C8: the default registry and its extension answer `find`
identically for the polite action, hence resolve identically. -/
theorem resolve_idempotent_witness :
    resolve defaultResolver "polite" "x" = resolve extendedResolver "polite" "x" :=
  (resolve_idempotent defaultResolver extendedResolver "polite" "x").2 (by decide)

/-- C6: the mock client's `complete` never returns an error: when no
response-map keyword and no Japanese marker occurs in the prompt it
returns the fixed default response; when a keyword or marker is recognized
it returns that action's canned response from the map; in particular the
polite marker prompt yields the canned polite response. -/
theorem mock_complete_total :
    ∀ (prompt : String),
      (∃ s, mockComplete mockResponses mockDefaultResponse prompt = .ok s) ∧
      ((∀ kv ∈ mockResponses, stringContains prompt kv.1 = false) →
        stringContains prompt "丁寧" = false →
        stringContains prompt "整理" = false →
        stringContains prompt "要約" = false →
        mockComplete mockResponses mockDefaultResponse prompt = .ok mockDefaultResponse) ∧
      (∀ a, extract_action mockResponses prompt = some a →
        ∃ resp, lookupResponse mockResponses a = some resp ∧
          mockComplete mockResponses mockDefaultResponse prompt = .ok resp) ∧
      mockComplete mockResponses mockDefaultResponse "丁寧な表現に変換してください" =
        .ok "こんにちは、お元気でしょうか。いつもありがとうございます。" := by
  intro prompt
  refine ⟨?_, ?_, ?_, by decide⟩
  · cases he : extract_action mockResponses prompt with
    | none => exact ⟨mockDefaultResponse, by simp [mockComplete, he]⟩
    | some a =>
      cases hl : lookupResponse mockResponses a with
      | none => exact ⟨mockDefaultResponse, by simp [mockComplete, he, hl]⟩
      | some resp => exact ⟨resp, by simp [mockComplete, he, hl]⟩
  · intro h1 h2 h3 h4
    have hfind : mockResponses.find? (fun kv => stringContains prompt kv.1) = none :=
      List.find?_eq_none.mpr (fun kv hkv => by simp [h1 kv hkv])
    have he : extract_action mockResponses prompt = none := by
      simp [extract_action, hfind, h2, h3, h4]
    simp [mockComplete, he]
  · intro a ha
    simp only [extract_action] at ha
    cases hfind : mockResponses.find? (fun kv => stringContains prompt kv.1) with
    | some kv =>
      rw [hfind] at ha
      have hak : a = kv.1 := by injection ha with h; exact h.symm
      have hmem : kv ∈ mockResponses := List.mem_of_find?_eq_some hfind
      have hsome : (mockResponses.find? (fun x => x.1 == kv.1)).isSome := by
        rw [List.find?_isSome]
        exact ⟨kv, hmem, by simp⟩
      obtain ⟨pr, hpr⟩ := Option.isSome_iff_exists.mp hsome
      have hea : extract_action mockResponses prompt = some a := by
        simp [extract_action, hfind, hak]
      refine ⟨pr.2, ?_, ?_⟩
      · simp [lookupResponse, hak, hpr]
      · simp [mockComplete, hea, lookupResponse, hak, hpr]
    | none =>
      rw [hfind] at ha
      have hea : extract_action mockResponses prompt = some a := by
        simp only [extract_action, hfind]
        exact ha
      split_ifs at ha with hm1 hm2 hm3
      · have ha2 : a = "polite" := by injection ha with h; exact h.symm
        subst ha2
        refine ⟨"こんにちは、お元気でしょうか。いつもありがとうございます。", by decide, ?_⟩
        simp only [mockComplete, hea]
        decide
      · have ha2 : a = "organize" := by injection ha with h; exact h.symm
        subst ha2
        refine ⟨"整理されたテキスト：\n\n1. 主要ポイント\n   - 項目A\n   - 項目B\n\n2. 詳細説明\n   - 説明1\n   - 説明2\n\n3. まとめ\n   - 結論", by decide, ?_⟩
        simp only [mockComplete, hea]
        decide
      · have ha2 : a = "summarize" := by injection ha with h; exact h.symm
        subst ha2
        refine ⟨"要約: このテキストは主要な3つのポイントを含んでいます。", by decide, ?_⟩
        simp only [mockComplete, hea]
        decide

/-- Witness for C6: a prompt with no keyword and no marker gets the fixed
default response. -/
theorem mock_complete_total_witness :
    mockComplete mockResponses mockDefaultResponse "some random prompt" =
      .ok mockDefaultResponse :=
  (mock_complete_total "some random prompt").2.1 (by decide) (by decide) (by decide) (by decide)

/-- C1: both vendor `complete` variants classify a non-2xx response by
status exactly as the spec table `specStatusKind` prescribes (401 or
403 → Auth, 429 → RateLimit, 400 → BadRequest, any other non-2xx →
ServiceError), and a 2xx response whose parsed completion list is empty
fails with the Api kind. -/
theorem vendor_complete_classifies_by_status :
    ∀ (status : Nat) (msg : String) (p : Except String ChatCompletionResponse)
      (q : Except String MessagesResponse),
      (isSuccessStatus status = false →
        resultKind (openAiComplete (.response status msg p)) =
          some (specStatusKind status) ∧
        resultKind (anthropicComplete (.response status msg q)) =
          some (specStatusKind status)) ∧
      (isSuccessStatus status = true →
        openAiComplete (.response status msg (.ok ⟨[]⟩)) =
          .error (.LlmApi "OpenAI returned no choices") ∧
        anthropicComplete (.response status msg (.ok ⟨[]⟩)) =
          .error (.LlmApi "Anthropic returned no content")) := by
  intro status msg p q
  constructor
  · intro h
    constructor <;>
    · simp only [openAiComplete, anthropicComplete, h, Bool.false_eq_true, if_false,
        resultKind, specStatusKind]
      split_ifs <;> rfl
  · intro h
    constructor <;> simp [openAiComplete, anthropicComplete, h]

/-- Witness for C1: a 503 response is classified by the table (as
ServiceError), and empty 200 responses fail with the Api kind. -/
theorem vendor_complete_classifies_by_status_witness :
    (resultKind (openAiComplete (.response 503 "oops" (.ok ⟨[]⟩))) =
        some (specStatusKind 503) ∧
      resultKind (anthropicComplete (.response 503 "oops" (.ok ⟨[]⟩))) =
        some (specStatusKind 503)) ∧
    (openAiComplete (.response 200 "ok" (.ok ⟨[]⟩)) =
        .error (.LlmApi "OpenAI returned no choices") ∧
      anthropicComplete (.response 200 "ok" (.ok ⟨[]⟩)) =
        .error (.LlmApi "Anthropic returned no content")) :=
  ⟨(vendor_complete_classifies_by_status 503 "oops" (.ok ⟨[]⟩) (.ok ⟨[]⟩)).1 (by decide),
   (vendor_complete_classifies_by_status 200 "ok" (.ok ⟨[]⟩) (.ok ⟨[]⟩)).2 (by decide)⟩

/-- C2: every error a core operation can return belongs to the eight-kind
taxonomy ActionNotFound, InvalidTemplate, Network, Auth (`LlmAuth`),
RateLimit (`LlmRateLimit`), BadRequest (`LlmBadRequest`), ServiceError
(`LlmServiceError`), Api (`LlmApi`): `render` and `resolve` fail only
with taxonomy kinds, the mock `complete` never fails, and both vendor
`complete` variants fail only with taxonomy kinds — no other kind is
producible by these components. -/
theorem error_taxonomy_exhaustive :
    (∀ (vars : List (String × String)) (t : String) (e : RephraserError),
      render vars t = .error e → isTaxonomyKind (errKind e) = true) ∧
    (∀ (r : ActionResolver) (n t : String) (e : RephraserError),
      resolve r n t = .error e → isTaxonomyKind (errKind e) = true) ∧
    (∀ (responses : List (String × String)) (d p : String) (e : RephraserError),
      mockComplete responses d p ≠ .error e) ∧
    (∀ (sim : SimHttp ChatCompletionResponse) (e : RephraserError),
      openAiComplete sim = .error e → isTaxonomyKind (errKind e) = true) ∧
    (∀ (sim : SimHttp MessagesResponse) (e : RephraserError),
      anthropicComplete sim = .error e → isTaxonomyKind (errKind e) = true) := by
  refine ⟨?_, ?_, ?_, ?_, ?_⟩
  · intro vars t e h
    rw [render_error_kind h]
    rfl
  · intro r n t e h
    cases hf : find_action r n with
    | none =>
      simp only [resolve, hf] at h
      injection h with h1
      subst h1
      rfl
    | some a =>
      simp only [resolve, hf] at h
      rw [render_error_kind h]
      rfl
  · intro responses d p e
    cases he : extract_action responses p with
    | none => simp [mockComplete, he]
    | some a =>
      cases hl : lookupResponse responses a with
      | none => simp [mockComplete, he, hl]
      | some resp => simp [mockComplete, he, hl]
  · intro sim e h
    cases sim with
    | sendFailure m =>
      simp only [openAiComplete] at h
      injection h with h1
      subst h1
      rfl
    | response status msg parsed =>
      by_cases hs : isSuccessStatus status
      · simp only [openAiComplete, hs, if_true] at h
        cases parsed with
        | error m =>
          injection h with h1
          subst h1
          rfl
        | ok resp =>
          dsimp only at h
          cases hh : resp.choices.head? with
          | some c => rw [hh] at h; simp at h
          | none =>
            rw [hh] at h
            injection h with h1
            subst h1
            rfl
      · have hs' : isSuccessStatus status = false := by
          revert hs; cases isSuccessStatus status <;> simp
        simp only [openAiComplete, hs', Bool.false_eq_true, if_false] at h
        injection h with h1
        subst h1
        split_ifs <;> rfl
  · intro sim e h
    cases sim with
    | sendFailure m =>
      simp only [anthropicComplete] at h
      injection h with h1
      subst h1
      rfl
    | response status msg parsed =>
      by_cases hs : isSuccessStatus status
      · simp only [anthropicComplete, hs, if_true] at h
        cases parsed with
        | error m =>
          injection h with h1
          subst h1
          rfl
        | ok resp =>
          dsimp only at h
          cases hh : resp.content.head? with
          | some c => rw [hh] at h; simp at h
          | none =>
            rw [hh] at h
            injection h with h1
            subst h1
            rfl
      · have hs' : isSuccessStatus status = false := by
          revert hs; cases isSuccessStatus status <;> simp
        simp only [anthropicComplete, hs', Bool.false_eq_true, if_false] at h
        injection h with h1
        subst h1
        split_ifs <;> rfl

/-- Witness for C2: a resolver miss yields a taxonomy-kind error. -/
theorem error_taxonomy_exhaustive_witness :
    isTaxonomyKind (errKind (.ActionNotFound "missing")) = true :=
  error_taxonomy_exhaustive.2.1 ⟨[]⟩ "missing" "t" (.ActionNotFound "missing") (by decide)

/-- C9: `resolve` binds exactly the single variable `text`; for the
default polite action, whose template's only placeholder is the `text`
placeholder, an input that itself carries a brace-delimited identifier
other than `text` (closing brace included) survives substitution unbound,
and `resolve` fails with an `InvalidTemplate` error naming that
identifier. -/
theorem resolve_reports_placeholder_in_input :
    ∀ (foo u v : String),
      foo ≠ "text" → foo.data ≠ [] →
      (∀ c ∈ foo.data, c ≠ '{' ∧ c ≠ '}') →
      (∀ c ∈ u.data, c ≠ '{' ∧ c ≠ '}') →
      (∀ c ∈ v.data, c ≠ '{' ∧ c ≠ '}') →
      resolve defaultResolver "polite" (u ++ "\x7b" ++ foo ++ "\x7d" ++ v) =
        .error (.InvalidTemplate ("Missing variables: " ++ foo)) := by
  intro foo u v hfoo hfne hfc huc hvc
  have hnoPre : '{' ∉ politePre := by decide
  have hnoSuf : '{' ∉ politeSuf := by decide
  have hu : '{' ∉ u.data := fun h => (huc _ h).1 rfl
  have hv : '{' ∉ v.data := fun h => (hvc _ h).1 rfl
  have hfooc : ∀ c ∈ foo.data, c ≠ '}' := fun c hc => (hfc c hc).2
  have hinput : (u ++ "\x7b" ++ foo ++ "\x7d" ++ v).data =
      u.data ++ ('{' :: (foo.data ++ ('}' :: v.data))) := by
    simp [String.data_append]
  have hfind : find_action defaultResolver "polite" = some
      { name := "polite", display_name := "丁寧に"
      , prompt_template := "以下のテキストを丁寧な表現に変換してください。元の意味を保ったまま、敬語や丁寧語を適切に使用してください。\n\nテキスト:\n\x7btext\x7d\n\n丁寧な表現:" } := by
    decide
  have hdecomp :
      ("以下のテキストを丁寧な表現に変換してください。元の意味を保ったまま、敬語や丁寧語を適切に使用してください。\n\nテキスト:\n\x7btext\x7d\n\n丁寧な表現:" : String).data
        = politePre ++ placeholderOf "text" ++ politeSuf := by
    decide
  set input := u ++ "\x7b" ++ foo ++ "\x7d" ++ v with hinputdef
  have hsubst : substAll [("text", input)]
      (politePre ++ placeholderOf "text" ++ politeSuf) =
      politePre ++ input.data ++ politeSuf := by
    have hcontains :
        containsSub (placeholderOf "text")
          (politePre ++ placeholderOf "text" ++ politeSuf) = true :=
      containsSub_append _ politePre politeSuf
    calc substAll [("text", input)] (politePre ++ placeholderOf "text" ++ politeSuf)
        = if containsSub (placeholderOf "text")
              (politePre ++ placeholderOf "text" ++ politeSuf) then
            replaceAll (placeholderOf "text") input.data
              (politePre ++ placeholderOf "text" ++ politeSuf)
          else politePre ++ placeholderOf "text" ++ politeSuf := rfl
      _ = replaceAll (placeholderOf "text") input.data
            (politePre ++ placeholderOf "text" ++ politeSuf) := by
          rw [if_pos hcontains]
      _ = politePre ++ input.data ++ politeSuf :=
          replaceAll_exact politePre politeSuf hnoPre hnoSuf
  have hkey : containsKey [("text", input)] foo.data = false := by
    have hne : ("text" : String).data ≠ foo.data := by
      intro heq
      apply hfoo
      have h2 := congrArg String.mk heq
      rw [mk_data, mk_data] at h2
      exact h2.symm
    simp [containsKey, hne]
  have hscan : scanMissing [("text", input)]
      (politePre ++ input.data ++ politeSuf) = [foo] := by
    show scanGo [("text", input)] (politePre ++ input.data ++ politeSuf) none = [foo]
    rw [List.append_assoc, scanGo_append_none _ hnoPre, hinput]
    rw [List.append_assoc, scanGo_append_none _ hu]
    rw [show (('{' :: (foo.data ++ ('}' :: v.data))) ++ politeSuf)
        = '{' :: ((foo.data ++ ('}' :: v.data)) ++ politeSuf) from rfl]
    rw [show scanGo [("text", input)]
          ('{' :: ((foo.data ++ ('}' :: v.data)) ++ politeSuf)) none
        = scanGo [("text", input)] ((foo.data ++ ('}' :: v.data)) ++ politeSuf) (some [])
        from by simp [scanGo]]
    rw [List.append_assoc, scanGo_append_some _ hfooc _ []]
    rw [show (('}' :: v.data) ++ politeSuf) = '}' :: (v.data ++ politeSuf) from rfl]
    rw [show scanGo [("text", input)] ('}' :: (v.data ++ politeSuf)) (some ([] ++ foo.data))
        = (if foo.data ≠ [] ∧ ¬ containsKey [("text", input)] foo.data then
            [String.mk foo.data] else []) ++
          scanGo [("text", input)] (v.data ++ politeSuf) none from by simp [scanGo]]
    rw [scanGo_append_none _ hv, scanGo_none_of_no_open _ hnoSuf]
    rw [if_pos ⟨hfne, by simp [hkey]⟩]
    simp [mk_data]
  have hrender := @render_error_of_scan [("text", input)]
    "以下のテキストを丁寧な表現に変換してください。元の意味を保ったまま、敬語や丁寧語を適切に使用してください。\n\nテキスト:\n\x7btext\x7d\n\n丁寧な表現:"
    foo [] (by rw [hdecomp, hsubst]; exact hscan)
  rw [intercalate_singleton] at hrender
  show resolve defaultResolver "polite" input = _
  rw [resolve, hfind]
  exact hrender

/-- Witness for C9: the identifier `foo` inside the input survives and is
reported. -/
theorem resolve_reports_placeholder_in_input_witness :
    resolve defaultResolver "polite" ("a " ++ "\x7b" ++ "foo" ++ "\x7d" ++ "!") =
      .error (.InvalidTemplate ("Missing variables: " ++ "foo")) :=
  resolve_reports_placeholder_in_input "foo" "a " "!"
    (by decide) (by decide) (by decide) (by decide) (by decide)

end Rephraser
